import Mathlib

/-!
Verification of the VideoCrush encode-orchestration engine
(`video_compressor.py`) against its natural-language specification.

The Python source is shallowly embedded: floats become `ℚ`, Python `int()`
truncation on nonnegative quotients becomes `Int.floor`, fallible paths
become `Except`/explicit outcome values, and the ffmpeg stderr chunk loop
becomes a pure recursion over a list of chunks with an explicit
cancellation poll index.
-/

deriving instance DecidableEq for Except

/-- Errors of the bitrate planner (the two early-return error messages in
`CompressionWorker.run`, lines 240-247 of the source). -/
inductive PlanError where
  | insufficientBudget
  | bitrateTooLow
deriving DecidableEq

/-- Bitrate planner, embedded from `CompressionWorker.run` lines 228, 238-247:
`target_bits = target_mb * 8 * 1024 * 1024`;
`audio_bits = audio_kbps * 1000 * duration`;
`video_bits = target_bits - audio_bits`, error if `≤ 0`;
`video_kbps = int(video_bits / duration / 1000)`, error if `< 50`.
Python floats are modelled as `ℚ`; `int()` on the nonnegative quotient is
`Int.floor`.  The source's intermediate names `target_bits`, `audio_bits`,
`video_bits` are inlined so that `video_bits` reads
`target_mb * 8 * 1024 * 1024 - audio_kbps * 1000 * duration`. -/
def planBitrate (target_mb duration : ℚ) (audio_kbps : ℕ) : Except PlanError (ℤ × ℕ) :=
  if target_mb * 8 * 1024 * 1024 - (audio_kbps : ℚ) * 1000 * duration ≤ 0 then
    .error .insufficientBudget
  else if ⌊(target_mb * 8 * 1024 * 1024 - (audio_kbps : ℚ) * 1000 * duration)
      / duration / 1000⌋ < 50 then
    .error .bitrateTooLow
  else
    .ok (⌊(target_mb * 8 * 1024 * 1024 - (audio_kbps : ℚ) * 1000 * duration)
      / duration / 1000⌋, audio_kbps)

/-- One probed stream descriptor: its `codec_type` field and optional
`bit_rate` field (already converted to a number, as `int(...)` does). -/
structure StreamInfo where
  codecType : String
  bitRate : Option ℕ
deriving DecidableEq

/-- Resolution of the planner's audio bitrate, embedded from
`CompressionWorker.run` lines 229-236:
`audio_kbps = audio_bitrate if codec not in ('copy','an') else 0`, then for
`copy` the first stream with `codec_type == 'audio'` overrides it with
`int(stream.get('bit_rate', 128000)) // 1000` (the loop `break`s at the
first audio stream, which is `List.find?`).  The initial value is inlined
into both branches. -/
def resolveAudioKbps (audioCodec : String) (audioBitrate : ℕ)
    (streams : List StreamInfo) : ℕ :=
  if audioCodec = "copy" then
    match streams.find? (fun s => s.codecType == "audio") with
    | some s => (s.bitRate.getD 128000) / 1000
    | none => if audioCodec ≠ "copy" ∧ audioCodec ≠ "an" then audioBitrate else 0
  else if audioCodec ≠ "copy" ∧ audioCodec ≠ "an" then audioBitrate else 0

/-- Python `str.strip` whitespace set (space, tab, newline, carriage return,
vertical tab, form feed). -/
def isPyWs (c : Char) : Bool :=
  c = ' ' || c = '\t' || c = '\n' || c = '\r' || c = '\x0b' || c = '\x0c'

/-- Python `str.strip`: drop whitespace from both ends. -/
def pyStrip (s : List Char) : List Char :=
  ((s.dropWhile isPyWs).reverse.dropWhile isPyWs).reverse

/-- Greedy run of decimal digits (regex `\d+`): the maximal leading digit
run and the rest, `none` when the run is empty. -/
def digitRun (s : List Char) : Option (List Char × List Char) :=
  if (s.takeWhile Char.isDigit).isEmpty then none
  else some (s.takeWhile Char.isDigit, s.dropWhile Char.isDigit)

/-- Numeric value of a digit string, as Python `int(...)`. -/
def digitsToNat (ds : List Char) : ℕ :=
  ds.foldl (fun a c => 10 * a + (c.toNat - '0'.toNat)) 0

/-- Match the regex `time=(\d+):(\d+):(\d+)\.(\d+)` at the start of the
text, returning the parsed hour/minute/second groups (the fraction group is
matched but discarded, as the source binds it to `_`).  Greedy `\d+`
followed by a non-digit literal is exactly a maximal digit run. -/
def matchTimeAt (s : List Char) : Option (ℕ × ℕ × ℕ) :=
  match s with
  | 't' :: 'i' :: 'm' :: 'e' :: '=' :: r0 =>
    match digitRun r0 with
    | none => none
    | some (hh, r1) =>
      match r1 with
      | ':' :: r2 =>
        match digitRun r2 with
        | none => none
        | some (mm, r3) =>
          match r3 with
          | ':' :: r4 =>
            match digitRun r4 with
            | none => none
            | some (ss, r5) =>
              match r5 with
              | '.' :: r6 =>
                match digitRun r6 with
                | none => none
                | some _ => some (digitsToNat hh, digitsToNat mm, digitsToNat ss)
              | _ => none
          | _ => none
      | _ => none
  | _ => none

/-- Model of `re.search` for the timestamp pattern: the leftmost position where the
pattern matches. -/
def searchTime : List Char → Option (ℕ × ℕ × ℕ)
  | [] => none
  | c :: rest =>
    match matchTimeAt (c :: rest) with
    | some r => some r
    | none => searchTime rest

/-- Does `s` start with `pat`? -/
def startsWithSeq : List Char → List Char → Bool
  | [], _ => true
  | _ :: _, [] => false
  | p :: ps, c :: cs => p == c && startsWithSeq ps cs

/-- Python `pat in s` substring test. -/
def containsSeq (pat : List Char) : List Char → Bool
  | [] => startsWithSeq pat []
  | c :: rest => startsWithSeq pat (c :: rest) || containsSeq pat rest

/-- The error-keyword scan of `_run_ffmpeg` (line 402): the lower-cased
stripped line contains one of `error`, `invalid`, `failed`, `unknown`. -/
def warnLine (line : List Char) : Bool :=
  let text := (pyStrip line).map Char.toLower
  containsSeq ('e' :: 'r' :: 'r' :: 'o' :: 'r' :: []) text ||
  containsSeq ('i' :: 'n' :: 'v' :: 'a' :: 'l' :: 'i' :: 'd' :: []) text ||
  containsSeq ('f' :: 'a' :: 'i' :: 'l' :: 'e' :: 'd' :: []) text ||
  containsSeq ('u' :: 'n' :: 'k' :: 'n' :: 'o' :: 'w' :: 'n' :: []) text

/-- The per-line progress extraction of `_run_ffmpeg` (lines 393-399):
strip the line, search for the timestamp, ignore the fraction, compute
`current = 3600*h + 60*m + s` and emit
`min(int(current / duration * 100), 100)` when `duration > 0`, else `0`. -/
def progressOfLine (duration : ℚ) (line : List Char) : Option ℕ :=
  match searchTime (pyStrip line) with
  | some (h, m, s) =>
    some (if 0 < duration then
      min (Int.toNat ⌊((h * 3600 + m * 60 + s : ℕ) : ℚ) / duration * 100⌋) 100
    else 0)
  | none => none

/-- Python `bytes.split(b'\r')`: the pieces of `s` between carriage
returns (always at least one piece). -/
def splitCR : List Char → List (List Char)
  | [] => [[]]
  | c :: rest =>
    match splitCR rest with
    | [] => [[]]
    | h :: t => if c = '\r' then [] :: h :: t else (c :: h) :: t

/-- Proof-side reformulation of the split: the complete (carriage-return
terminated) pieces and the trailing unterminated piece. -/
def scanCR : List Char → List (List Char) × List Char
  | [] => ([], [])
  | c :: rest =>
    if c = '\r' then ([] :: (scanCR rest).1, (scanCR rest).2)
    else
      match scanCR rest with
      | ([], buf) => ([], c :: buf)
      | (h :: t, buf) => ((c :: h) :: t, buf)

/-- One chunk-read step of `_run_ffmpeg` (lines 387-391):
`buffer += chunk; lines = buffer.split(b'\r'); buffer = lines[-1]`, and the
processed complete lines are `lines[:-1]`. -/
def stepLines (buffer chunk : List Char) : List (List Char) × List Char :=
  ((splitCR (buffer ++ chunk)).dropLast, (splitCR (buffer ++ chunk)).getLastD [])

/-- The shared cancellation flag as seen at poll point `i`: the flag is set
once and only ever goes from false to true, so it is modelled by the first
poll index `k` at which it reads true (`none` = never set). -/
def cancelFlag (cAt : Option ℕ) (i : ℕ) : Bool :=
  match cAt with
  | none => false
  | some k => decide (k ≤ i)

/-- Result of the read/parse loop of `_run_ffmpeg` (lines 377-399):
progress events and warning lines emitted, the leftover stderr buffer, and
whether the loop exited through the cancellation branch. -/
structure LoopOut where
  events : List ℕ
  warns : List (List Char)
  buffer : List Char
  cancelledEarly : Bool
deriving DecidableEq

/-- The chunk-read loop of `_run_ffmpeg`: at iteration `i` the cancellation
flag is polled (terminate/wait/return when set), then one fixed-size chunk
is read (empty read breaks the loop), appended to the buffer, split on
carriage returns, and every complete line is scanned for a timestamp
(progress) and for error keywords (warning). -/
def ffmpegLoop (d : ℚ) (cAt : Option ℕ) :
    List (List Char) → ℕ → List Char → LoopOut
  | [], i, buf =>
    if cancelFlag cAt i then ⟨[], [], buf, true⟩ else ⟨[], [], buf, false⟩
  | c :: cs, i, buf =>
    if cancelFlag cAt i then ⟨[], [], buf, true⟩
    else
      let p := stepLines buf c
      let r := ffmpegLoop d cAt cs (i + 1) p.2
      ⟨p.1.filterMap (progressOfLine d) ++ r.events,
        p.1.filter warnLine ++ r.warns, r.buffer, r.cancelledEarly⟩

/-- Observable outcome of one `_run_ffmpeg` call: emitted progress events
and warnings, whether the process was terminated and awaited, whether the
call returned through the cancellation branch, whether the stderr tail was
logged as failure detail, and whether the final `progress.emit(100)` ran. -/
structure FfmpegResult where
  events : List ℕ
  warns : List (List Char)
  terminated : Bool
  waited : Bool
  cancelledEarly : Bool
  tailLogged : Bool
  final100 : Bool
deriving DecidableEq

/-- Embedding of `_run_ffmpeg` (lines 369-410): run the loop from an empty buffer; on
the cancellation branch terminate and wait and return with nothing more
emitted; otherwise wait, log the stripped buffer tail iff the exit code is
non-zero and the flag (read once more, i.e. at poll index `len+1`) is still
unset and the tail is non-empty, then unconditionally emit progress 100. -/
def runFfmpeg (d : ℚ) (chunks : List (List Char)) (rc : ℤ) (cAt : Option ℕ) :
    FfmpegResult :=
  let r := ffmpegLoop d cAt chunks 0 []
  if r.cancelledEarly then
    ⟨r.events, r.warns, true, true, true, false, false⟩
  else
    ⟨r.events, r.warns, false, true, false,
      decide (rc ≠ 0) && !cancelFlag cAt (chunks.length + 1) &&
        !(pyStrip r.buffer).isEmpty,
      true⟩

/-- The stream of progress events a pass emits when never cancelled. -/
def ffmpegEvents (d : ℚ) (chunks : List (List Char)) : List ℕ :=
  (runFfmpeg d chunks 0 none).events

/-- Session-level terminal outcome of `CompressionWorker.run`: each error
branch `error.emit(...); return`, the cancellation branches, and success. -/
inductive Outcome where
  | errFfmpegNotFound
  | errProbe
  | errDuration
  | errBudget
  | errLowBitrate
  | cancelled
  | completed
  | errOutputMissing
deriving DecidableEq

/-- Probe result: `float(info['format'].get('duration', 0))` and the stream
list. -/
structure ProbeInfo where
  duration : ℚ
  streams : List StreamInfo
deriving DecidableEq

/-- Inputs and environment of one `CompressionWorker.run` session.
`c1` and `c2` are the values the shared cancellation flag is observed to
hold at the two checks after pass 1 (line 298) and after pass 2 (line 338);
`outputWritten` is whether the output file exists when checked after
pass 2 (the only pass that writes to the output path). -/
structure WorkerInput where
  ffmpegFound : Bool
  probe : Option ProbeInfo
  target_mb : ℚ
  videoCodec : String
  audioCodec : String
  audioBitrate : ℕ
  c1 : Bool
  c2 : Bool
  outputWritten : Bool
deriving DecidableEq

/-- Observable effects of one `CompressionWorker.run` session: the terminal
outcome, which passes were started, whether the output file was deleted by
the cancellation branch, whether the sidecar pass-log cleanup block
(lines 358-364) was reached, and whether an output file exists at the
requested output path when the session ends. -/
structure WorkerResult where
  outcome : Outcome
  pass1Ran : Bool
  pass2Ran : Bool
  outputRemoved : Bool
  sidecarCleanupRan : Bool
  finalOutputExists : Bool
deriving DecidableEq

/-- Embedding of `CompressionWorker.run` (lines 209-364) as a state machine over the
observable inputs: locate ffmpeg, probe, check duration, plan the bitrate
split, run pass 1 unless the codec is SVT-AV1, return `Cancelled` at the
post-pass-1 check, run pass 2, at the post-pass-2 check delete the output
file if it exists and return `Cancelled`, otherwise report success or
missing output and only then run the sidecar cleanup block.  Pass exit
codes are never consulted by the source, so they do not appear here. -/
def runWorker (w : WorkerInput) : WorkerResult :=
  if w.ffmpegFound = false then ⟨.errFfmpegNotFound, false, false, false, false, false⟩
  else
    match w.probe with
    | none => ⟨.errProbe, false, false, false, false, false⟩
    | some info =>
      if info.duration ≤ 0 then ⟨.errDuration, false, false, false, false, false⟩
      else
        match planBitrate w.target_mb info.duration
            (resolveAudioKbps w.audioCodec w.audioBitrate info.streams) with
        | .error .insufficientBudget => ⟨.errBudget, false, false, false, false, false⟩
        | .error .bitrateTooLow => ⟨.errLowBitrate, false, false, false, false, false⟩
        | .ok _ =>
          if w.videoCodec ≠ "libsvtav1" ∧ w.c1 = true then
            ⟨.cancelled, true, false, false, false, false⟩
          else if w.c2 = true then
            ⟨.cancelled, !(w.videoCodec == "libsvtav1"), true, w.outputWritten,
              false, false⟩
          else if w.outputWritten = true then
            ⟨.completed, !(w.videoCodec == "libsvtav1"), true, false, true, true⟩
          else
            ⟨.errOutputMissing, !(w.videoCodec == "libsvtav1"), true, false,
              true, false⟩

/-- Inputs to the ffmpeg argument-list builders.  `container` is the
request's target output container (the format combo selection);
`outputDir` stands for `os.path.dirname(output_path)`; `nullOut` is the
platform null device (`NUL` or `/dev/null`). -/
structure CmdInput where
  ffmpeg : String
  inputPath : String
  outputPath : String
  outputDir : String
  container : String
  videoCodec : String
  audioCodec : String
  audioBitrate : ℕ
  preset : String
  resolution : String
  videoKbps : ℤ
  nullOut : String
deriving DecidableEq

/-- Height parsed from a resolution label, `int(resolution.replace('p', ''))`
(lines 258-260); the labels come from a fixed combo list so the parse is
total there. -/
def resHeight (r : String) : ℕ :=
  ((r.replace "p" "").toNat?).getD 0

/-- The optional scale filter arguments (lines 257-262, 275-276): when a
resolution label other than empty or `Original` is chosen, append
`-vf scale=-2:<height>`. -/
def vfArgs (resolution : String) : List String :=
  if resolution ≠ "" ∧ resolution ≠ "Original" then
    ["-vf", "scale=-2:" ++ toString (resHeight resolution)]
  else []

/-- The common head of both pass command lists (lines 273-278, 308-313):
binary, overwrite, input, optional scale filter, codec, video bitrate. -/
def baseCmd (c : CmdInput) : List String :=
  [c.ffmpeg, "-y", "-i", c.inputPath] ++ vfArgs c.resolution ++
    ["-c:v", c.videoCodec, "-b:v", toString c.videoKbps ++ "k"]

/-- The pass-log base path, `os.path.join(os.path.dirname(output_path),
'ffmpeg2pass')`. -/
def passlogPath (c : CmdInput) : String :=
  c.outputDir ++ "/ffmpeg2pass"

/-- Pass-1 argument list (lines 273-292).  VP9 gets `-speed 4` and a
discard sink tagged `-f webm`; SVT-AV1 builds no pass-1 additions (the
pass is skipped); other codecs get the preset, `-f null` and the null
sink. -/
def pass1Cmd (c : CmdInput) : List String :=
  if c.videoCodec = "libvpx-vp9" then
    baseCmd c ++ ["-pass", "1", "-passlogfile", passlogPath c,
      "-speed", "4", "-an", "-f", "webm", c.nullOut]
  else if c.videoCodec = "libsvtav1" then
    baseCmd c
  else
    baseCmd c ++ (if c.preset ≠ "" then ["-preset", c.preset] else []) ++
      ["-pass", "1", "-passlogfile", passlogPath c, "-an", "-f", "null", c.nullOut]

/-- The audio arguments of pass 2 (lines 326-331). -/
def audioArgs (c : CmdInput) : List String :=
  if c.audioCodec = "an" then ["-an"]
  else if c.audioCodec = "copy" then ["-c:a", "copy"]
  else ["-c:a", c.audioCodec, "-b:a", toString c.audioBitrate ++ "k"]

/-- Pass-2 argument list (lines 308-333).  VP9 gets `-speed 2`; SVT-AV1
gets `-svtav1-params tbr=<kbps>`; other codecs get the preset and pass-2
log flags; all get the audio arguments, `-movflags +faststart` and the
real output path. -/
def pass2Cmd (c : CmdInput) : List String :=
  (if c.videoCodec = "libvpx-vp9" then
    baseCmd c ++ ["-pass", "2", "-passlogfile", passlogPath c, "-speed", "2"]
  else if c.videoCodec = "libsvtav1" then
    baseCmd c ++ ["-svtav1-params", "tbr=" ++ toString c.videoKbps]
  else
    baseCmd c ++ (if c.preset ≠ "" then ["-preset", c.preset] else []) ++
      ["-pass", "2", "-passlogfile", passlogPath c]) ++
    audioArgs c ++ ["-movflags", "+faststart", c.outputPath]

/-- The value following the first occurrence of `flag` in an argument
list. -/
def argAfter (flag : String) : List String → Option String
  | [] => none
  | [_] => none
  | a :: b :: rest => if a = flag then some b else argAfter flag (b :: rest)

/-- A VP9 encode request whose target container is Matroska, not WebM. -/
def vp9MkvRequest : CmdInput :=
  ⟨"ffmpeg", "in.mkv", "out.mkv", "d", "mkv", "libvpx-vp9", "aac", 128,
    "", "Original", 221, "/dev/null"⟩

/-- A valid x264 session on which the cancellation flag is observed set at
the check following pass 1. -/
def cancelledPass1Session : WorkerInput :=
  ⟨true, some ⟨600, []⟩, 25, "libx264", "an", 128, true, true, false⟩

/-- A valid x264 session cancelled at the check following pass 2, with a
partially written output file present. -/
def cancelledPass2Session : WorkerInput :=
  ⟨true, some ⟨600, []⟩, 25, "libx264", "an", 128, false, true, true⟩

/-- A stderr line carrying a progress timestamp. -/
def exProgressLine : List Char :=
  ('f' :: 'r' :: 'a' :: 'm' :: 'e' :: '=' :: '1' :: ' ' :: 't' :: 'i' :: 'm'
    :: 'e' :: '=' :: '0' :: '0' :: ':' :: '0' :: '1' :: ':' :: '3' :: '0'
    :: '.' :: '5' :: ' ' :: 'x' :: [])

/-- First half of a chunk pair that splits a timestamp mid-way. -/
def exChunkA : List Char :=
  ('a' :: ' ' :: 't' :: 'i' :: 'm' :: 'e' :: '=' :: '0' :: '0' :: ':' :: '0'
    :: '0' :: ':' :: [])

/-- Second half of the chunk pair: completes the timestamp and terminates
the line with a carriage return. -/
def exChunkB : List Char :=
  ('0' :: '5' :: '.' :: '0' :: ' ' :: 'x' :: '\r' :: [])

/-- The complete line that the two example chunks reassemble to. -/
def exSplitLine : List Char :=
  ('a' :: ' ' :: 't' :: 'i' :: 'm' :: 'e' :: '=' :: '0' :: '0' :: ':' :: '0'
    :: '0' :: ':' :: '0' :: '5' :: '.' :: '0' :: ' ' :: 'x' :: [])

/-- C1: the planner computes `target_bits = target_mb*8*1024*1024`,
`audio_bits = audio_kbps*1000*duration`, `video_bits = target_bits - audio_bits`,
fails with InsufficientBudget exactly when `video_bits ≤ 0`, otherwise fails
with BitrateTooLow exactly when `floor(video_bits/duration/1000) < 50`, and
otherwise returns that floor; in particular 25 MB, 600 s, 128 kbps audio
yields 221 kbps video. -/
theorem C1_planner_formula : ∀ (t d : ℚ) (a : ℕ), 0 < t → 0 < d →
    ((planBitrate t d a = Except.error PlanError.insufficientBudget) ↔
      t * 8 * 1024 * 1024 - (a : ℚ) * 1000 * d ≤ 0) ∧
    ((planBitrate t d a = Except.error PlanError.bitrateTooLow) ↔
      (0 < t * 8 * 1024 * 1024 - (a : ℚ) * 1000 * d ∧
        ⌊(t * 8 * 1024 * 1024 - (a : ℚ) * 1000 * d) / d / 1000⌋ < 50)) ∧
    (0 < t * 8 * 1024 * 1024 - (a : ℚ) * 1000 * d →
      50 ≤ ⌊(t * 8 * 1024 * 1024 - (a : ℚ) * 1000 * d) / d / 1000⌋ →
      planBitrate t d a =
        Except.ok (⌊(t * 8 * 1024 * 1024 - (a : ℚ) * 1000 * d) / d / 1000⌋, a)) ∧
    planBitrate 25 600 128 = Except.ok (221, 128) := by
  intro t d a _ _
  refine ⟨?_, ?_, ?_, by norm_num [planBitrate]⟩ <;>
    · unfold planBitrate
      split_ifs with h1 h2 <;> simp_all

/-- Witness for C1 at `target_mb = 25`, `duration = 600`, `audio_kbps = 128`. -/
theorem C1_planner_formula_witness :
    (0 : ℚ) < 25 ∧ planBitrate 25 600 128 = Except.ok (221, 128) :=
  ⟨by norm_num, (C1_planner_formula 25 600 128 (by norm_num) (by norm_num)).2.2.2⟩

/-- C3 counterexample: two distinct targets (120 MB and 121 MB at 20000 s,
no audio) on which the planner succeeds with the SAME video bitrate, so
`video_kbps` is not strictly increasing in `target_mb`. -/
theorem C3_not_strictly_increasing :
    planBitrate 120 20000 0 = Except.ok (50, 0) ∧
    planBitrate 121 20000 0 = Except.ok (50, 0) ∧
    (120 : ℚ) < 121 := by
  refine ⟨by norm_num [planBitrate], by norm_num [planBitrate], by norm_num⟩

/-- C3 (amended): the planner is deterministic (a pure function of its
inputs) and `video_kbps` is monotone non-decreasing in `target_mb` with all
other inputs fixed, whenever both runs succeed. -/
theorem C3_monotone_in_target : ∀ (t1 t2 d : ℚ) (a : ℕ) (v1 v2 : ℤ) (b1 b2 : ℕ),
    0 < d → t1 ≤ t2 →
    planBitrate t1 d a = Except.ok (v1, b1) →
    planBitrate t2 d a = Except.ok (v2, b2) →
    v1 ≤ v2 := by
  intro t1 t2 d a v1 v2 b1 b2 hd ht h1 h2
  unfold planBitrate at h1 h2
  split_ifs at h1 h2 with hb1 hk1 hb2 hk2
  simp only [Except.ok.injEq, Prod.mk.injEq] at h1 h2
  rw [← h1.1, ← h2.1]
  apply Int.floor_le_floor
  apply div_le_div_of_nonneg_right _ (by norm_num : (0 : ℚ) ≤ 1000)
  apply div_le_div_of_nonneg_right _ hd.le
  linarith

/-- Witness for C3 (amended) at targets 120 and 121 MB, 20000 s, no audio. -/
theorem C3_monotone_in_target_witness :
    planBitrate 120 20000 0 = Except.ok (50, 0) ∧
    planBitrate 121 20000 0 = Except.ok (50, 0) ∧ (50 : ℤ) ≤ 50 :=
  ⟨by norm_num [planBitrate], by norm_num [planBitrate],
    C3_monotone_in_target 120 121 20000 0 50 50 0 0 (by norm_num) (by norm_num)
      (by norm_num [planBitrate]) (by norm_num [planBitrate])⟩

/-- C9: with the copy audio policy, a source with no audio stream resolves to
`audio_kbps = 0`; the 128 default applies exactly when the first audio stream
reports no bitrate; only the first audio stream is consulted (via `find?`). -/
theorem C9_audio_copy_resolution : ∀ (br : ℕ) (streams : List StreamInfo),
    (streams.find? (fun s => s.codecType == "audio") = none →
      resolveAudioKbps "copy" br streams = 0) ∧
    (∀ s, streams.find? (fun s => s.codecType == "audio") = some s →
      resolveAudioKbps "copy" br streams = (s.bitRate.getD 128000) / 1000) ∧
    (∀ s, streams.find? (fun s => s.codecType == "audio") = some s →
      s.bitRate = none → resolveAudioKbps "copy" br streams = 128) := by
  intro br streams
  refine ⟨fun h => ?_, fun s h => ?_, fun s h hb => ?_⟩
  · unfold resolveAudioKbps
    rw [if_pos rfl, h]
    simp
  · unfold resolveAudioKbps
    rw [if_pos rfl, h]
  · unfold resolveAudioKbps
    rw [if_pos rfl, h]
    simp [hb]

/-- Witness for C9: a single audio stream with no reported bitrate resolves
to the 128 kbps default, even with a different requested encode bitrate. -/
theorem C9_audio_copy_resolution_witness :
    resolveAudioKbps "copy" 99 [⟨"audio", none⟩] = 128 :=
  (C9_audio_copy_resolution 99 [⟨"audio", none⟩]).2.2 ⟨"audio", none⟩ (by decide) rfl


theorem scanCR_cons_cr (rest : List Char) :
    scanCR ('\r' :: rest) = ([] :: (scanCR rest).1, (scanCR rest).2) := by
  simp [scanCR]

theorem scanCR_cons_other (c : Char) (rest : List Char) (hc : ¬ c = '\r') :
    scanCR (c :: rest) =
      (match scanCR rest with
        | ([], buf) => ([], c :: buf)
        | (h :: t, buf) => ((c :: h) :: t, buf)) := by
  simp [scanCR, hc]

theorem scanCR_of_not_mem : ∀ s : List Char, '\r' ∉ s → scanCR s = ([], s) := by
  intro s
  induction s with
  | nil => intro _; rfl
  | cons c rest ih =>
    intro h
    simp only [List.mem_cons, not_or] at h
    have hc : ¬ c = '\r' := fun e => h.1 e.symm
    rw [scanCR_cons_other c rest hc, ih h.2]

theorem not_mem_scanCR_snd : ∀ s : List Char, '\r' ∉ (scanCR s).2 := by
  intro s
  induction s with
  | nil => simp [scanCR]
  | cons c rest ih =>
    by_cases hc : c = '\r'
    · subst hc
      rw [scanCR_cons_cr]
      exact ih
    · rw [scanCR_cons_other c rest hc]
      rcases hsc : scanCR rest with ⟨ls, buf⟩
      rw [hsc] at ih
      cases ls with
      | nil =>
        simp only [List.mem_cons, not_or]
        exact ⟨fun e => hc e.symm, ih⟩
      | cons l ls' => exact ih

theorem splitCR_eq_scanCR : ∀ s : List Char,
    splitCR s = (scanCR s).1 ++ [(scanCR s).2] := by
  intro s
  induction s with
  | nil => rfl
  | cons c rest ih =>
    rcases hsc : scanCR rest with ⟨ls, buf⟩
    rw [hsc] at ih
    by_cases hc : c = '\r'
    · subst hc
      rw [scanCR_cons_cr, hsc]
      simp only [splitCR, ih]
      cases ls <;> simp
    · rw [scanCR_cons_other c rest hc, hsc]
      simp only [splitCR, ih]
      cases ls <;> simp [hc]

theorem scanCR_append : ∀ (a b : List Char),
    scanCR (a ++ b) =
      ((scanCR a).1 ++ (scanCR ((scanCR a).2 ++ b)).1,
        (scanCR ((scanCR a).2 ++ b)).2) := by
  intro a
  induction a with
  | nil => intro b; simp [scanCR]
  | cons c a' ih =>
    intro b
    by_cases hc : c = '\r'
    · subst hc
      rw [List.cons_append, scanCR_cons_cr, ih b, scanCR_cons_cr]
      simp
    · rcases hsa : scanCR a' with ⟨ls, B⟩
      rcases hx : scanCR (B ++ b) with ⟨xs, xb⟩
      have ihb := ih b
      rw [hsa] at ihb
      simp only [hx] at ihb
      rw [List.cons_append, scanCR_cons_other c (a' ++ b) hc, ihb,
        scanCR_cons_other c a' hc, hsa]
      cases ls with
      | nil =>
        have hcb : scanCR ((c :: B) ++ b) = scanCR (c :: (B ++ b)) := by
          rw [List.cons_append]
        rw [show (match (([] : List (List Char)), B) with
            | ([], buf) => (([] : List (List Char)), c :: buf)
            | (h :: t, buf) => ((c :: h) :: t, buf)) = ([], c :: B) from rfl]
        simp only [hcb, scanCR_cons_other c (B ++ b) hc, hx]
        cases xs <;> simp
      | cons l ls' => simp [hx]

theorem stepLines_eq : ∀ buffer chunk : List Char,
    stepLines buffer chunk =
      ((scanCR (buffer ++ chunk)).1, (scanCR (buffer ++ chunk)).2) := by
  intro buffer chunk
  have h := splitCR_eq_scanCR (buffer ++ chunk)
  simp [stepLines, h, List.getLastD_concat]

theorem ffmpegLoop_none_eq : ∀ (d : ℚ) (cs : List (List Char)) (i : ℕ)
    (buf : List Char), '\r' ∉ buf →
    ffmpegLoop d none cs i buf =
      ⟨((scanCR (buf ++ cs.join)).1).filterMap (progressOfLine d),
        ((scanCR (buf ++ cs.join)).1).filter warnLine,
        (scanCR (buf ++ cs.join)).2, false⟩ := by
  intro d cs
  induction cs with
  | nil =>
    intro i buf h
    simp [ffmpegLoop, cancelFlag, scanCR_of_not_mem buf h]
  | cons c cs ih =>
    intro i buf h
    have hstep := stepLines_eq buf c
    have hrec := ih (i + 1) (scanCR (buf ++ c)).2 (not_mem_scanCR_snd (buf ++ c))
    have happ := scanCR_append (buf ++ c) cs.join
    simp only [ffmpegLoop, cancelFlag, hstep, hrec]
    simp [List.join_cons, ← List.append_assoc, happ, List.filterMap_append,
      List.filter_append]

theorem ffmpegLoop_some_eq : ∀ (d : ℚ) (k : ℕ) (cs : List (List Char)) (i : ℕ)
    (buf : List Char), '\r' ∉ buf →
    ffmpegLoop d (some k) cs i buf =
      ⟨((scanCR (buf ++ (cs.take (k - i)).join)).1).filterMap (progressOfLine d),
        ((scanCR (buf ++ (cs.take (k - i)).join)).1).filter warnLine,
        (scanCR (buf ++ (cs.take (k - i)).join)).2,
        decide (k - i ≤ cs.length)⟩ := by
  intro d k cs
  induction cs with
  | nil =>
    intro i buf h
    by_cases hk : k ≤ i
    · have h1 : k - i = 0 := by omega
      simp [ffmpegLoop, cancelFlag, hk, h1, scanCR_of_not_mem buf h]
    · have h0 : ¬ (k - i ≤ 0) := by omega
      simp [ffmpegLoop, cancelFlag, hk, h0, scanCR_of_not_mem buf h]
  | cons c cs ih =>
    intro i buf h
    by_cases hk : k ≤ i
    · have h1 : k - i = 0 := by omega
      have h2 : k - i ≤ cs.length + 1 := by omega
      simp [ffmpegLoop, cancelFlag, hk, h1, h2, scanCR_of_not_mem buf h]
    · have hstep := stepLines_eq buf c
      have hrec := ih (i + 1) (scanCR (buf ++ c)).2 (not_mem_scanCR_snd (buf ++ c))
      have happ := scanCR_append (buf ++ c) ((cs.take (k - (i + 1))).join)
      have htake : (c :: cs).take (k - i) = c :: cs.take (k - (i + 1)) := by
        have he : k - i = (k - (i + 1)) + 1 := by omega
        rw [he, List.take_succ_cons]
      have hdec : decide (k - (i + 1) ≤ cs.length) =
          decide (k - i ≤ (c :: cs).length) := by
        simp only [List.length_cons]
        exact decide_eq_decide.mpr (by omega)
      simp only [ffmpegLoop, cancelFlag, hk, decide_False, Bool.false_eq_true,
        if_false, hstep, hrec, htake, hdec]
      simp [List.join_cons, ← List.append_assoc, happ, List.filterMap_append,
        List.filter_append, cancelFlag, hk]

/-- C5: the supervisor reads stderr in fixed-size chunks, splits on the
carriage return and carries the leftover partial line across reads, so the
progress events depend only on the concatenated stream, not on where the
chunk boundaries fall; in particular a timestamp split across two chunk
reads yields exactly one ProgressEvent once the line is reassembled. -/
theorem C5_chunked_progress_parsing :
    (∀ (d : ℚ) (chunks : List (List Char)),
      ffmpegEvents d chunks = ffmpegEvents d [chunks.join]) ∧
    ffmpegEvents 10 [exChunkA, exChunkB] = [50] := by
  constructor
  · intro d chunks
    have h1 := ffmpegLoop_none_eq d chunks 0 [] (by simp)
    have h2 := ffmpegLoop_none_eq d [chunks.join] 0 [] (by simp)
    simp only [ffmpegEvents, runFfmpeg, h1, h2]
    simp
  · have h1 := ffmpegLoop_none_eq 10 [exChunkA, exChunkB] 0 [] (by simp)
    have hscan : scanCR (([] : List Char) ++
        ([exChunkA, exChunkB] : List (List Char)).join) =
        ([exSplitLine], ([] : List Char)) := by decide
    rw [hscan] at h1
    have hsearch : searchTime (pyStrip exSplitLine) = some (0, 0, 5) := by decide
    have hline : progressOfLine 10 exSplitLine = some 50 := by
      simp only [progressOfLine, hsearch]
      norm_num
      rfl
    simp only [ffmpegEvents, runFfmpeg, h1]
    simp [hline]

/-- C6: every completed line matching the timestamp pattern yields the
percent `min(100, floor((3600h + 60m + s) / duration * 100))`; the
fractional group is discarded by the parse and the emitted percent never
exceeds 100. -/
theorem C6_progress_percent_formula : ∀ (d : ℚ) (line : List Char) (h m s : ℕ),
    0 < d → searchTime (pyStrip line) = some (h, m, s) →
    progressOfLine d line =
      some (min (Int.toNat ⌊((h * 3600 + m * 60 + s : ℕ) : ℚ) / d * 100⌋) 100) ∧
    (∀ p, progressOfLine d line = some p → p ≤ 100) := by
  intro d line h m s hd hsearch
  constructor
  · simp only [progressOfLine, hsearch, if_pos hd]
  · intro p hp
    simp only [progressOfLine, hsearch, if_pos hd, Option.some.injEq] at hp
    rw [← hp]
    exact min_le_right _ _

/-- Witness for C6: `time=00:01:30.5` at duration 300 s emits exactly 30. -/
theorem C6_progress_percent_formula_witness :
    progressOfLine 300 exProgressLine = some 30 := by
  have h := (C6_progress_percent_formula 300 exProgressLine 0 1 30 (by norm_num)
    (by decide)).1
  rw [h]
  norm_num
  rfl

/-- C7: the cancellation flag is polled once per chunk-read iteration — a
flag first seen true at poll `k` stops the loop having processed exactly
the first `k` chunks — and then the process is terminated and awaited and
the pass ends through the cancellation branch; whenever cancellation was
requested by the time of the post-loop check, a non-zero exit code is
never logged as a process-error tail; at session level an observed flag
makes the run end `Cancelled` whenever any pass ran. -/
theorem C7_cancellation_polling : ∀ (d : ℚ) (chunks : List (List Char))
    (rc : ℤ) (k : ℕ), k ≤ chunks.length + 1 →
    (runFfmpeg d chunks rc (some k)).tailLogged = false ∧
    (k ≤ chunks.length →
      (runFfmpeg d chunks rc (some k)).cancelledEarly = true ∧
      (runFfmpeg d chunks rc (some k)).terminated = true ∧
      (runFfmpeg d chunks rc (some k)).waited = true ∧
      (runFfmpeg d chunks rc (some k)).events = ffmpegEvents d (chunks.take k)) ∧
    (∀ w : WorkerInput, w.c1 = true → w.c2 = true →
      ((runWorker w).pass1Ran = true ∨ (runWorker w).pass2Ran = true) →
      (runWorker w).outcome = Outcome.cancelled) := by
  intro d chunks rc k hk1
  have hl := ffmpegLoop_some_eq d k chunks 0 [] (by simp)
  simp only [Nat.sub_zero] at hl
  refine ⟨?_, fun hc => ?_, fun w h1 h2 hp => ?_⟩
  · by_cases hc : k ≤ chunks.length
    · simp only [runFfmpeg, hl]
      simp [hc]
    · have hflag : cancelFlag (some k) (chunks.length + 1) = true := by
        simp only [cancelFlag, decide_eq_true_eq]
        omega
      simp only [runFfmpeg, hl]
      simp [hc, hflag]
  · have hl2 := ffmpegLoop_none_eq d (chunks.take k) 0 [] (by simp)
    simp only [runFfmpeg, ffmpegEvents, hl, hl2]
    simp [hc]
  · unfold runWorker at hp ⊢
    repeat' split
    all_goals simp_all

/-- Witness for C7: cancellation first observed at poll index 1 of a
two-chunk stream with exit code 1. -/
theorem C7_cancellation_polling_witness :
    (runFfmpeg 10 [exChunkA, exChunkB] 1 (some 1)).tailLogged = false ∧
    (runFfmpeg 10 [exChunkA, exChunkB] 1 (some 1)).cancelledEarly = true :=
  ⟨(C7_cancellation_polling 10 [exChunkA, exChunkB] 1 1 (by norm_num)).1,
    ((C7_cancellation_polling 10 [exChunkA, exChunkB] 1 1 (by norm_num)).2.1
      (by norm_num)).1⟩

/-- C10: whenever the loop does not exit through the cancellation branch,
the trailing `progress.emit(100)` runs unconditionally once the process
has exited, for every exit code including non-zero ones. -/
theorem C10_final_progress_unconditional : ∀ (d : ℚ) (chunks : List (List Char))
    (rc : ℤ) (cAt : Option ℕ),
    (runFfmpeg d chunks rc cAt).cancelledEarly = false →
    (runFfmpeg d chunks rc cAt).final100 = true := by
  intro d chunks rc cAt h
  simp only [runFfmpeg] at h ⊢
  split
  · simp_all
  · rfl

/-- Witness for C10: a pass whose process exits with code 1 and is never
cancelled still reports 100. -/
theorem C10_final_progress_unconditional_witness :
    (runFfmpeg 10 [] 1 none).final100 = true :=
  C10_final_progress_unconditional 10 [] 1 none rfl

/-- C2: the claim that every terminal path attempts sidecar cleanup is the
spec's intent, but the code returns from the cancellation branches before
the cleanup block: a valid session whose cancellation flag is observed at
the post-pass-1 check terminates as `Cancelled` with pass 1 started and
the sidecar cleanup block never reached. -/
theorem C2_cancel_skips_sidecar_cleanup :
    (runWorker cancelledPass1Session).outcome = Outcome.cancelled ∧
    (runWorker cancelledPass1Session).pass1Ran = true ∧
    (runWorker cancelledPass1Session).sidecarCleanupRan = false := by
  have hplan : planBitrate 25 600 (resolveAudioKbps "an" 128 []) =
      Except.ok (349, 0) := by
    norm_num [resolveAudioKbps, planBitrate]
  simp [runWorker, cancelledPass1Session, hplan]
  norm_num

/-- C4: a session whose terminal outcome is `Cancelled` never leaves an
output artifact at the requested output path (the post-pass-2 branch
deletes any partially written file, and earlier cancellation precedes any
write to the output path), and cancellation observed during the loop
terminates and awaits the active process. -/
theorem C4_cancel_no_output_artifact : ∀ (w : WorkerInput),
    ((runWorker w).outcome = Outcome.cancelled →
      (runWorker w).finalOutputExists = false) ∧
    (∀ (d : ℚ) (chunks : List (List Char)) (rc : ℤ) (k : ℕ),
      k ≤ chunks.length →
      (runFfmpeg d chunks rc (some k)).terminated = true ∧
      (runFfmpeg d chunks rc (some k)).waited = true) := by
  intro w
  constructor
  · intro h
    unfold runWorker at h ⊢
    repeat' split
    all_goals simp_all
  · intro d chunks rc k hk
    have hl := ffmpegLoop_some_eq d k chunks 0 [] (by simp)
    simp only [Nat.sub_zero] at hl
    simp only [runFfmpeg, hl]
    simp [hk]

/-- Witness for C4: cancellation observed after pass 2 with a partially
written output file present deletes it, and a cancellation at poll 0
terminates the process. -/
theorem C4_cancel_no_output_artifact_witness :
    (runWorker cancelledPass2Session).finalOutputExists = false ∧
    (runFfmpeg 10 [exChunkA] 1 (some 0)).terminated = true :=
  ⟨(C4_cancel_no_output_artifact cancelledPass2Session).1 (by
      have hplan : planBitrate 25 600 (resolveAudioKbps "an" 128 []) =
          Except.ok (349, 0) := by
        norm_num [resolveAudioKbps, planBitrate]
      simp [runWorker, cancelledPass2Session, hplan]
      norm_num),
    ((C4_cancel_no_output_artifact cancelledPass2Session).2 10 [exChunkA] 1 0
      (by norm_num)).1⟩

/-- C8 counterexample: for a VP9 request targeting the Matroska container,
pass 1's discard sink is tagged `-f webm`, not the request's container. -/
theorem C8_pass1_sink_not_request_container :
    argAfter "-f" (pass1Cmd vp9MkvRequest) = some "webm" ∧
    vp9MkvRequest.container = "mkv" ∧
    argAfter "-f" (pass1Cmd vp9MkvRequest) ≠ some vp9MkvRequest.container := by
  refine ⟨by decide, rfl, by decide⟩

/-- C8 (amended): for every VP9 request, pass 1 writes to the discard sink
tagged with the fixed `webm` format — independent of the request's target
container — with `-speed 4`, while pass 2 uses `-speed 2`, a different
speed parameter. -/
theorem C8_vp9_pass_shape : ∀ (c : CmdInput), c.videoCodec = "libvpx-vp9" →
    pass1Cmd c = baseCmd c ++ ["-pass", "1", "-passlogfile", passlogPath c,
      "-speed", "4", "-an", "-f", "webm", c.nullOut] ∧
    pass2Cmd c = baseCmd c ++ ["-pass", "2", "-passlogfile", passlogPath c,
      "-speed", "2"] ++ audioArgs c ++ ["-movflags", "+faststart", c.outputPath] ∧
    (∀ x, pass1Cmd { c with container := x } = pass1Cmd c) ∧
    ("4" : String) ≠ "2" := by
  intro c h
  refine ⟨by simp [pass1Cmd, h], by simp [pass2Cmd, h], fun x => rfl, by decide⟩

/-- Witness for C8 (amended): the concrete VP9 request with Matroska
container. -/
theorem C8_vp9_pass_shape_witness :
    pass1Cmd { vp9MkvRequest with container := "mp4" } = pass1Cmd vp9MkvRequest ∧
    ("4" : String) ≠ "2" :=
  ⟨(C8_vp9_pass_shape vp9MkvRequest rfl).2.2.1 "mp4",
    (C8_vp9_pass_shape vp9MkvRequest rfl).2.2.2⟩
